import Mathlib

/-!
Verification of the tree-sitter based validation and ACSL-injection core
(`validation_treesitter.py`, with the fragment-list checker from
`injection.py`).

Modelling conventions:
* Source text is a `List Char`; byte positions are character offsets
  (the sources are treated as single-byte text, as the code itself does
  when it mixes byte offsets with string slicing).
* The external Tree Provider (tree-sitter) is out of scope for the
  repository; it is modelled as a parameter `parse : List Char → Node`
  producing a tree of typed nodes with byte spans and ordered children.
* Python's dynamically typed fragment argument is modelled by `PyObj`;
  Python exceptions are modelled by `Except (List Char)`.
-/

/-- Python whitespace class (the ASCII part of `\s` and `str.strip`). -/
def isWS (c : Char) : Bool :=
  c = ' ' || c = '\t' || c = '\n' || c = '\r' || c = '\x0b' || c = '\x0c'

/-- Character data of a string literal. -/
def chars (s : String) : List Char := s.data

/-- A single apostrophe character (used verbatim in diagnostics). -/
def quote1 : List Char := [ Char.ofNat 39 ]

/-- Decimal rendering of a natural number (Python `str(n)` / f-string). -/
def natChars (n : Nat) : List Char := (Nat.repr n).data

/-- Python slicing `s[a:b]` (clamped, `a ≤ b` not required). -/
def pySlice (s : List Char) (a b : Nat) : List Char := (s.take b).drop a

/-- Python `s.strip()`: drop leading and trailing whitespace. -/
def stripWS (s : List Char) : List Char :=
  ((s.dropWhile isWS).reverse.dropWhile isWS).reverse

/-- Worker for `collapseWS`; the flag records whether the previous
character was whitespace (so a run collapses to a single space). -/
def collapseWSgo : Bool → List Char → List Char
  | _, [] => []
  | prevWS, c :: rest =>
    if isWS c then
      if prevWS then collapseWSgo true rest
      else ' ' :: collapseWSgo true rest
    else c :: collapseWSgo false rest

/-- Python `re.sub(r'\s+', ' ', s)`: every maximal whitespace run becomes
one space. -/
def collapseWS (s : List Char) : List Char := collapseWSgo false s

/-- Python `s.split('\n')`. -/
def splitOnNl : List Char → List (List Char)
  | [] => [ [] ]
  | c :: rest =>
    if c = '\n' then [] :: splitOnNl rest
    else
      match splitOnNl rest with
      | [] => [ [ c ] ]
      | l :: ls => (c :: l) :: ls

/-- Python `'\n'.join(lines)`. -/
def joinNl (lines : List (List Char)) : List Char :=
  List.intercalate [ '\n' ] lines

/-- Count of newline characters in a text (Python `s.count('\n')`). -/
def countNl (s : List Char) : Nat := s.count '\n'

/-- A syntax-tree node as exposed by the Tree Provider: a kind tag, a
byte span and ordered children. -/
inductive Node where
  | mk : List Char → Nat → Nat → List Node → Node

/-- Kind tag of a node. -/
def Node.type : Node → List Char
  | Node.mk t _ _ _ => t

/-- Start offset of a node. -/
def Node.start_byte : Node → Nat
  | Node.mk _ s _ _ => s

/-- End offset of a node. -/
def Node.end_byte : Node → Nat
  | Node.mk _ _ e _ => e

/-- Ordered children of a node. -/
def Node.children : Node → List Node
  | Node.mk _ _ _ c => c

mutual

/-- `_find_all_nodes_of_type`: recursively find all nodes of a specific
type (the node itself included, and its subtree is still searched even
when the node matches). -/
def _find_all_nodes_of_type : Node → List Char → List Node
  | Node.mk t s e cs, node_type =>
    (if t = node_type then [ Node.mk t s e cs ] else []) ++
      findAllInChildren cs node_type

/-- Worker of `_find_all_nodes_of_type` over a child list. -/
def findAllInChildren : List Node → List Char → List Node
  | [], _ => []
  | n :: rest, node_type =>
    _find_all_nodes_of_type n node_type ++ findAllInChildren rest node_type

end

/-- `LoopInfo` from `validation_treesitter.py`. -/
structure LoopInfo where
  type : List Char
  header : List Char
  byte_position : Nat
  line_number : Nat
deriving DecidableEq

/-- `FunctionInfo` from `validation_treesitter.py`. -/
structure FunctionInfo where
  name : List Char
  signature : List Char
  byte_position : Nat
  line_number : Nat
  loops : List LoopInfo
deriving DecidableEq

/-- `CodeStructure` from `validation_treesitter.py`. -/
structure CodeStructure where
  functions : List FunctionInfo
deriving DecidableEq

/-- Ascending order on loops by byte position (key of the Python stable
sort in `_extract_loops_from_body`). -/
def loopLE (a b : LoopInfo) : Prop := a.byte_position ≤ b.byte_position

instance : DecidableRel loopLE := fun a b => Nat.decLe a.byte_position b.byte_position

instance : IsTotal LoopInfo loopLE := ⟨fun a b => Nat.le_total a.byte_position b.byte_position⟩

instance : IsTrans LoopInfo loopLE := ⟨fun _ _ _ h1 h2 => Nat.le_trans h1 h2⟩

/-- `_get_function_name`'s search: the first `function_declarator` child
holding an `identifier` sub-child yields the name. -/
def nameFromDeclarator (source : List Char) : List Node → Option (List Char)
  | [] => none
  | c :: cs =>
    if c.type = chars "function_declarator" then
      match c.children.find? (fun sc => sc.type = chars "identifier") with
      | some idn => some (pySlice source idn.start_byte idn.end_byte)
      | none => nameFromDeclarator source cs
    else nameFromDeclarator source cs

/-- `_get_function_name`: extract the function name from a
`function_definition` node; falls back to the literal text `unknown`. -/
def _get_function_name (func_node : Node) (source : List Char) : List Char :=
  (nameFromDeclarator source func_node.children).getD (chars "unknown")

/-- `_get_function_signature`: normalized text from the function start
to the start of its `compound_statement` body; falls back to the whole
node text (stripped, not collapsed). -/
def _get_function_signature (func_node : Node) (source : List Char) : List Char :=
  match func_node.children.find? (fun c => c.type = chars "compound_statement") with
  | some body =>
    collapseWS (stripWS (pySlice source func_node.start_byte body.start_byte))
  | none => stripWS (pySlice source func_node.start_byte func_node.end_byte)

/-- Body-start scan of `_get_loop_header`: the first `compound_statement`
child wins immediately; otherwise the last statement-kind child is kept. -/
def bodyStartScan (acc : Option Nat) : List Node → Option Nat
  | [] => acc
  | c :: cs =>
    if c.type = chars "compound_statement" then some c.start_byte
    else if c.type = chars "expression_statement" ∨ c.type = chars "return_statement" ∨
        c.type = chars "for_statement" ∨ c.type = chars "while_statement" ∨
        c.type = chars "if_statement" ∨ c.type = chars "do_statement" then
      bodyStartScan (some c.start_byte) cs
    else bodyStartScan acc cs

/-- `_get_loop_header`: normalized loop header text.  Mirrors the Python
truthiness test `if body_start:` (both `None` and offset `0` take the
fallback branch). -/
def _get_loop_header (loop_node : Node) (source : List Char) : List Char :=
  let bodyStart := bodyStartScan none loop_node.children
  let header :=
    if (bodyStart.getD 0) ≠ 0 then
      stripWS (pySlice source loop_node.start_byte (bodyStart.getD 0))
    else stripWS (pySlice source loop_node.start_byte loop_node.end_byte)
  collapseWS header

/-- `_extract_loop_info`: loop kind, header, and position data. -/
def _extract_loop_info (loop_node : Node) (source : List Char) (loop_type : List Char) : LoopInfo :=
  let simple_type :=
    if loop_type = chars "for_statement" then chars "for"
    else if loop_type = chars "while_statement" then chars "while"
    else chars "do"
  { type := simple_type
    header := _get_loop_header loop_node source
    byte_position := loop_node.start_byte
    line_number := countNl (source.take loop_node.start_byte) + 1 }

/-- `_extract_loops_from_body`: gather for/while/do loops anywhere in the
body subtree, then stable-sort ascending by byte position. -/
def _extract_loops_from_body (body_node : Node) (source : List Char) : List LoopInfo :=
  let fors := (_find_all_nodes_of_type body_node (chars "for_statement")).map
    (fun n => _extract_loop_info n source (chars "for_statement"))
  let whiles := (_find_all_nodes_of_type body_node (chars "while_statement")).map
    (fun n => _extract_loop_info n source (chars "while_statement"))
  let dos := (_find_all_nodes_of_type body_node (chars "do_statement")).map
    (fun n => _extract_loop_info n source (chars "do_statement"))
  List.insertionSort loopLE (fors ++ whiles ++ dos)

/-- `_extract_function_info`: name, signature, position, and the loops of
the first `compound_statement` child (the function body). -/
def _extract_function_info (func_node : Node) (source : List Char) : FunctionInfo :=
  let name := _get_function_name func_node source
  let signature := _get_function_signature func_node source
  let byte_pos := func_node.start_byte
  let line_num := countNl (source.take byte_pos) + 1
  let body := func_node.children.find? (fun c => c.type = chars "compound_statement")
  let loops :=
    match body with
    | some b => _extract_loops_from_body b source
    | none => []
  { name := name
    signature := signature
    byte_position := byte_pos
    line_number := line_num
    loops := loops }

/-- `extract_structure`: structural model of a source text, built from
the Tree Provider's tree. -/
def extract_structure (parse : List Char → Node) (c_code : List Char) : CodeStructure :=
  let tree := parse c_code
  ⟨(_find_all_nodes_of_type tree (chars "function_definition")).map
    (fun n => _extract_function_info n c_code)⟩

/-- Diagnostic text for a function-count mismatch. -/
def countMsg (a b : Nat) : List Char :=
  chars "Function count mismatch: skeleton has " ++ natChars a ++
    chars ", completion has " ++ natChars b

/-- Diagnostic text for a function-name mismatch. -/
def nameMsg (i : Nat) (a b : List Char) : List Char :=
  chars "Function " ++ natChars i ++ chars " name mismatch: " ++
    quote1 ++ a ++ quote1 ++ chars " vs " ++ quote1 ++ b ++ quote1

/-- Diagnostic text for a signature mismatch. -/
def sigMsg (name s1 s2 : List Char) : List Char :=
  chars "Function " ++ quote1 ++ name ++ quote1 ++
    chars " signature mismatch:\n  Skeleton: " ++ s1 ++
    chars "\n  Completion: " ++ s2

/-- Diagnostic text for a loop-count mismatch. -/
def loopCountMsg (name : List Char) (a b : Nat) : List Char :=
  chars "Function " ++ quote1 ++ name ++ quote1 ++
    chars " loop count mismatch: skeleton has " ++ natChars a ++
    chars ", completion has " ++ natChars b

/-- Diagnostic text for a loop-kind mismatch. -/
def loopTypeMsg (name : List Char) (j : Nat) (a b : List Char) : List Char :=
  chars "Function " ++ quote1 ++ name ++ quote1 ++ chars " loop " ++
    natChars j ++ chars " type mismatch: " ++
    quote1 ++ a ++ quote1 ++ chars " vs " ++ quote1 ++ b ++ quote1

/-- Diagnostic text for a loop-header mismatch. -/
def loopHeaderMsg (name : List Char) (j : Nat) (a b : List Char) : List Char :=
  chars "Function " ++ quote1 ++ name ++ quote1 ++ chars " loop " ++
    natChars j ++ chars " header mismatch:\n  Skeleton: " ++ a ++
    chars "\n  Completion: " ++ b

/-- Per-loop leg of `_compare_structures` (the Python `zip` loop over a
function's loops, with the running loop index). -/
def compareLoopLists (fname : List Char) : Nat → List LoopInfo → List LoopInfo → Bool × Option (List Char)
  | _, [], _ => (true, none)
  | _, _ :: _, [] => (true, none)
  | j, sl :: ss, cl :: cs =>
    if sl.type ≠ cl.type then (false, some (loopTypeMsg fname j sl.type cl.type))
    else if sl.header ≠ cl.header then (false, some (loopHeaderMsg fname j sl.header cl.header))
    else compareLoopLists fname (j + 1) ss cs

/-- Per-function leg of `_compare_structures` (the Python `zip` loop over
functions, with the running function index). -/
def compareFuncLists : Nat → List FunctionInfo → List FunctionInfo → Bool × Option (List Char)
  | _, [], _ => (true, none)
  | _, _ :: _, [] => (true, none)
  | i, sf :: ss, cf :: cs =>
    if sf.name ≠ cf.name then (false, some (nameMsg i sf.name cf.name))
    else if sf.signature ≠ cf.signature then
      (false, some (sigMsg sf.name sf.signature cf.signature))
    else if sf.loops.length ≠ cf.loops.length then
      (false, some (loopCountMsg sf.name sf.loops.length cf.loops.length))
    else
      match compareLoopLists sf.name 0 sf.loops cf.loops with
      | (false, msg) => (false, msg)
      | (true, _) => compareFuncLists (i + 1) ss cs

/-- `_compare_structures`: compare two code structures, short-circuiting
at the first divergence. -/
def _compare_structures (skel comp : CodeStructure) : Bool × Option (List Char) :=
  if skel.functions.length ≠ comp.functions.length then
    (false, some (countMsg skel.functions.length comp.functions.length))
  else compareFuncLists 0 skel.functions comp.functions

/-- The first structural divergence, as the specification describes it
(section 4.2): compared field plus both observed values, checked in the
fixed order function count, then per-function name, signature, loop
count, then per-loop kind and header, in stored order.  This is the
specification-side model used to state the refinement claim about
`_compare_structures`. -/
inductive StructDivergence where
  | funcCount : Nat → Nat → StructDivergence
  | funcName : Nat → List Char → List Char → StructDivergence
  | funcSig : List Char → List Char → List Char → StructDivergence
  | loopCount : List Char → Nat → Nat → StructDivergence
  | loopKind : List Char → Nat → List Char → List Char → StructDivergence
  | loopHeader : List Char → Nat → List Char → List Char → StructDivergence
deriving DecidableEq

/-- Specification-side model: first divergence among a function's loops. -/
def firstLoopDivergence (fname : List Char) : Nat → List LoopInfo → List LoopInfo → Option StructDivergence
  | j, sl :: ss, cl :: cs =>
    if sl.type ≠ cl.type then some (StructDivergence.loopKind fname j sl.type cl.type)
    else if sl.header ≠ cl.header then
      some (StructDivergence.loopHeader fname j sl.header cl.header)
    else firstLoopDivergence fname (j + 1) ss cs
  | _, _, _ => none

/-- Specification-side model: first divergence among the functions. -/
def firstFuncDivergence : Nat → List FunctionInfo → List FunctionInfo → Option StructDivergence
  | i, sf :: ss, cf :: cs =>
    if sf.name ≠ cf.name then some (StructDivergence.funcName i sf.name cf.name)
    else if sf.signature ≠ cf.signature then
      some (StructDivergence.funcSig sf.name sf.signature cf.signature)
    else if sf.loops.length ≠ cf.loops.length then
      some (StructDivergence.loopCount sf.name sf.loops.length cf.loops.length)
    else
      match firstLoopDivergence sf.name 0 sf.loops cf.loops with
      | some d => some d
      | none => firstFuncDivergence (i + 1) ss cs
  | _, _, _ => none

/-- Specification-side model: the first point of divergence between two
structures, in the order fixed by the specification. -/
def firstDivergence (skel comp : CodeStructure) : Option StructDivergence :=
  if skel.functions.length ≠ comp.functions.length then
    some (StructDivergence.funcCount skel.functions.length comp.functions.length)
  else firstFuncDivergence 0 skel.functions comp.functions

/-- Rendering of a divergence into the comparator's diagnostic text. -/
def renderDivergence : StructDivergence → List Char
  | StructDivergence.funcCount a b => countMsg a b
  | StructDivergence.funcName i a b => nameMsg i a b
  | StructDivergence.funcSig n a b => sigMsg n a b
  | StructDivergence.loopCount n a b => loopCountMsg n a b
  | StructDivergence.loopKind n j a b => loopTypeMsg n j a b
  | StructDivergence.loopHeader n j a b => loopHeaderMsg n j a b

/-- The reference-side observed value of a divergence, as rendered in
its diagnostic. -/
def divergenceRefText : StructDivergence → List Char
  | StructDivergence.funcCount a _ => natChars a
  | StructDivergence.funcName _ a _ => a
  | StructDivergence.funcSig _ a _ => a
  | StructDivergence.loopCount _ a _ => natChars a
  | StructDivergence.loopKind _ _ a _ => a
  | StructDivergence.loopHeader _ _ a _ => a

/-- The candidate-side observed value of a divergence, as rendered in
its diagnostic. -/
def divergenceCandText : StructDivergence → List Char
  | StructDivergence.funcCount _ b => natChars b
  | StructDivergence.funcName _ _ b => b
  | StructDivergence.funcSig _ _ b => b
  | StructDivergence.loopCount _ _ b => natChars b
  | StructDivergence.loopKind _ _ _ b => b
  | StructDivergence.loopHeader _ _ _ b => b

/-- The name of the compared field, as it appears in the diagnostic. -/
def divergenceFieldLabel : StructDivergence → List Char
  | StructDivergence.funcCount _ _ => chars "count mismatch"
  | StructDivergence.funcName _ _ _ => chars "name mismatch"
  | StructDivergence.funcSig _ _ _ => chars "signature mismatch"
  | StructDivergence.loopCount _ _ _ => chars "loop count mismatch"
  | StructDivergence.loopKind _ _ _ _ => chars "type mismatch"
  | StructDivergence.loopHeader _ _ _ _ => chars "header mismatch"

/-- `validate_completion_matches_skeleton`: extract both structures and
compare them. -/
def validate_completion_matches_skeleton (parse : List Char → Node)
    (skeleton completion : List Char) : Bool × Option (List Char) :=
  let skel_structure := extract_structure parse skeleton
  let comp_structure := extract_structure parse completion
  _compare_structures skel_structure comp_structure

/-- A dynamically typed Python value, as far as the fragment-sequence
code paths can observe one. -/
inductive PyObj where
  | str : List Char → PyObj
  | int : Int → PyObj
  | list : List PyObj → PyObj
  | pynone : PyObj

/-- Python truthiness of a `PyObj`. -/
def pyTruthy : PyObj → Bool
  | PyObj.str s => !s.isEmpty
  | PyObj.int n => decide (n ≠ 0)
  | PyObj.list l => !l.isEmpty
  | PyObj.pynone => false

/-- The element sequence of a Python value, when it has one (`len`,
indexing and iteration agree on it); `none` models the `TypeError`
raised for non-sequences. -/
def pyElems : PyObj → Option (List PyObj)
  | PyObj.list l => some l
  | PyObj.str s => some (s.map (fun c => PyObj.str [ c ]))
  | _ => none

/-- Python type name of a value (for diagnostics). -/
def pyTypeName : PyObj → List Char
  | PyObj.str _ => chars "str"
  | PyObj.int _ => chars "int"
  | PyObj.list _ => chars "list"
  | PyObj.pynone => chars "NoneType"

/-- Python `repr(type(o))`, as interpolated into f-strings. -/
def typeRepr (o : PyObj) : List Char :=
  chars "<class " ++ quote1 ++ pyTypeName o ++ quote1 ++ chars ">"

/-- Python `o.strip()`: succeeds only on strings, otherwise models the
`AttributeError`. -/
def pyStrip : PyObj → Except (List Char) (List Char)
  | PyObj.str s => Except.ok (stripWS s)
  | o => Except.error (chars "AttributeError: " ++ pyTypeName o ++
      chars " object has no attribute strip")

/-- Rendering of an `Optional[str]` in an f-string. -/
def pyOptStr : Option (List Char) → List Char
  | none => chars "None"
  | some s => s

/-- Is this value a Python string? -/
def isPyStr : PyObj → Bool
  | PyObj.str _ => true
  | _ => false

/-- First non-string element of a list, with its index offset (worker of
`validate_spec_structure`). -/
def firstNonStr (off : Nat) : List PyObj → Option (Nat × PyObj)
  | [] => none
  | p :: ps =>
    if isPyStr p then firstNonStr (off + 1) ps
    else some (off, p)

/-- `validate_spec_structure` from `injection.py`: eager structural
check of a fragment sequence. -/
def validate_spec_structure (spec : PyObj) : Bool × Option (List Char) :=
  match spec with
  | PyObj.list l =>
    match l with
    | [] =>
      (false, some (chars "spec cannot be empty - must have at least predicates list (can be empty [])"))
    | first :: rest =>
      match first with
      | PyObj.list preds =>
        (match firstNonStr 0 preds with
         | some ip =>
           (false, some (chars "spec[0][" ++ natChars ip.1 ++
             chars "] (predicate) must be a string, got " ++ typeRepr ip.2))
         | none =>
           match firstNonStr 1 rest with
           | some ip =>
             (false, some (chars "spec[" ++ natChars ip.1 ++
               chars "] (function/loop spec) must be a string, got " ++ typeRepr ip.2))
           | none => (true, none))
      | _ => (false, some (chars "spec[0] (predicates) must be a list"))
  | _ => (false, some (chars "spec must be a list"))

/-- Well-formedness of a fragment sequence as the specification states
it (section 7): a sequence whose first element is a sequence of strings
and whose later elements are strings.  Claim-language definition, used
to state the refinement claim about `validate_spec_structure`. -/
def wellFormedFragmentSeq : PyObj → Bool
  | PyObj.list (first :: rest) =>
    (match first with
     | PyObj.list preds => preds.all isPyStr
     | _ => false) && rest.all isPyStr
  | _ => false

/-- `InjectionPoint` from `validation_treesitter.py`. -/
structure InjectionPoint where
  type : List Char
  byte_position : Nat
  line_number : Nat
  spec_index : Nat
  context : List Char
deriving DecidableEq

/-- Context label of a function injection point. -/
def funcCtx (name : List Char) : List Char :=
  chars "function " ++ quote1 ++ name ++ quote1

/-- Context label of a loop injection point. -/
def loopCtx (idx : Nat) (fname : List Char) (ltype : List Char) : List Char :=
  chars "loop " ++ natChars idx ++ chars " in function " ++ quote1 ++ fname ++
    quote1 ++ chars " (" ++ ltype ++ chars " loop)"

/-- Descending order on injection points by byte position (key of the
Python stable sort with `reverse=True` in `find_injection_points`). -/
def ptGE (p q : InjectionPoint) : Prop := q.byte_position ≤ p.byte_position

instance : DecidableRel ptGE := fun p q => Nat.decLe q.byte_position p.byte_position

instance : IsTotal InjectionPoint ptGE := ⟨fun p q => Nat.le_total q.byte_position p.byte_position⟩

instance : IsTrans InjectionPoint ptGE := ⟨fun _ _ _ h1 h2 => Nat.le_trans h2 h1⟩

/-- The planner's inner loop: one point per loop slot while the fragment
cursor is within range (`n` is the fragment-sequence length). -/
def emitLoopPoints (fname : List Char) (n : Nat) : List LoopInfo → Nat → Nat → List InjectionPoint × Nat
  | [], _, cursor => ([], cursor)
  | lp :: rest, idx, cursor =>
    if cursor < n then
      let pt : InjectionPoint :=
        { type := chars "loop"
          byte_position := lp.byte_position
          line_number := lp.line_number
          spec_index := cursor
          context := loopCtx idx fname lp.type }
      let pr := emitLoopPoints fname n rest (idx + 1) (cursor + 1)
      (pt :: pr.1, pr.2)
    else emitLoopPoints fname n rest (idx + 1) cursor

/-- The planner's outer loop: per function one function point, then its
loop points, threading the fragment cursor. -/
def emitFuncPoints (n : Nat) : List FunctionInfo → Nat → List InjectionPoint × Nat
  | [], cursor => ([], cursor)
  | f :: fs, cursor =>
    if cursor < n then
      let pt : InjectionPoint :=
        { type := chars "function"
          byte_position := f.byte_position
          line_number := f.line_number
          spec_index := cursor
          context := funcCtx f.name }
      let lp := emitLoopPoints f.name n f.loops 0 (cursor + 1)
      let rest := emitFuncPoints n fs lp.2
      (pt :: (lp.1 ++ rest.1), rest.2)
    else
      let lp := emitLoopPoints f.name n f.loops 0 cursor
      let rest := emitFuncPoints n fs lp.2
      (lp.1 ++ rest.1, rest.2)

/-- `find_injection_points`: map the fragment sequence onto the target's
structure (cursor starting at index 1), then stable-sort the points by
byte position descending. -/
def find_injection_points (parse : List Char → Node) (c_code : List Char)
    (spec : List PyObj) : List InjectionPoint :=
  let st := extract_structure parse c_code
  let pr := emitFuncPoints spec.length st.functions 1
  List.insertionSort ptGE pr.1

/-- The flattened byte positions of all fragment slots of a structure,
in traversal order (one per function, then one per loop). -/
def slotPositionsOf : List FunctionInfo → List Nat
  | [] => []
  | f :: fs =>
    (f.byte_position :: f.loops.map (fun l => l.byte_position)) ++ slotPositionsOf fs

/-- The flattened byte positions of all fragment slots of a structure. -/
def slotPositions (st : CodeStructure) : List Nat := slotPositionsOf st.functions

/-- The double-quote character. -/
def dquote : Char := Char.ofNat 34

/-- One character is not an include-bracket closer (greater-than or
double quote). -/
def notCloser (c : Char) : Bool := !(c = '>' || c = dquote)

/-- The include-directive pattern of `inject_acsl_specs_treesitter`
(optional whitespace, hash, optional whitespace, the word include,
whitespace, an angle- or quote-bracketed non-empty path), matched
anchored at the start of a line as `re.match` does.  The greedy
quantifiers are deterministic here because each one's class is disjoint
from what must follow it. -/
def isIncludeLine (line : List Char) : Bool :=
  match line.dropWhile isWS with
  | '#' :: r1 =>
    let r2 := r1.dropWhile isWS
    if (chars "include").isPrefixOf r2 then
      let r3 := r2.drop 7
      match r3 with
      | c :: _ =>
        if isWS c then
          match r3.dropWhile isWS with
          | d :: r5 =>
            if d = '<' ∨ d = dquote then
              let mid := r5.takeWhile notCloser
              let r6 := r5.dropWhile notCloser
              decide (mid ≠ []) &&
                (match r6 with
                 | e :: _ => e = '>' || e = dquote
                 | [] => false)
            else false
          | [] => false
        else false
      | [] => false
    else false
  | _ => false

/-- The Python `last_include_line` loop: index of the last line matching
the include pattern, anywhere in the file. -/
def lastIncludeGo (i : Nat) (acc : Option Nat) : List (List Char) → Option Nat
  | [] => acc
  | l :: ls => lastIncludeGo (i + 1) (if isIncludeLine l then some i else acc) ls

/-- Index of the last include-style line of a line list (Python keeps
`-1`, modelled as `none`, when no line matches). -/
def lastIncludeIdx (lines : List (List Char)) : Option Nat :=
  lastIncludeGo 0 none lines

/-- Steps 1 and 2 of `inject_acsl_specs_treesitter`: split the code at
the last include-style line into header and body. -/
def splitHeaderBody (c_code : List Char) : List Char × List Char :=
  let lines := splitOnNl c_code
  match lastIncludeIdx lines with
  | some i => (joinNl (lines.take (i + 1)), joinNl (lines.drop (i + 1)))
  | none => ([], c_code)

/-- Length of the leading whitespace run. -/
def wsRun (s : List Char) : Nat := (s.takeWhile isWS).length

/-- Length of the leading newline run. -/
def nlRun (s : List Char) : Nat := (s.takeWhile (fun c => c = '\n')).length

/-- Largest `a ≤ n` satisfying `p` (the backtracking order of a greedy
quantifier: longest candidate first). -/
def largestBelow (n : Nat) (p : Nat → Bool) : Option Nat :=
  ((List.range (n + 1)).reverse).find? p

/-- Greedy match length of `\s*\n+` at the start of `u`. -/
def tailMatch2 (u : List Char) : Option Nat :=
  match largestBelow (wsRun u) (fun a => (u.drop a).head? == some '\n') with
  | some a => some (a + nlRun (u.drop a))
  | none => none

/-- Greedy match length of `\s*\n\s*\n+` at the start of `u`. -/
def tailMatch1 (u : List Char) : Option Nat :=
  match largestBelow (wsRun u)
      (fun b => ((u.drop b).head? == some '\n') && (tailMatch2 (u.drop (b + 1))).isSome) with
  | some b => some (b + 1 + (tailMatch2 (u.drop (b + 1))).getD 0)
  | none => none

/-- Greedy match length of the blank-run pattern `\n\s*\n\s*\n+` at the
start of a text, `none` when it does not match there. -/
def blankRunMatch : List Char → Option Nat
  | [] => none
  | c :: rest =>
    if c = '\n' then (tailMatch1 rest).map (fun k => k + 1) else none

/-- Worker of `collapseBlankRuns`, with fuel bounding the scan (the fuel
starts at the text length and every step consumes at least one
character, so it never runs out). -/
def collapseBlankGo : Nat → List Char → List Char
  | 0, s => s
  | _ + 1, [] => []
  | fuel + 1, c :: rest =>
    match blankRunMatch (c :: rest) with
    | some len => chars "\n\n" ++ collapseBlankGo fuel ((c :: rest).drop len)
    | none => c :: collapseBlankGo fuel rest

/-- Python `re.sub(r'\n\s*\n\s*\n+', '\n\n', s)`: collapse runs of blank
lines. -/
def collapseBlankRuns (s : List Char) : List Char := collapseBlankGo s.length s

/-- One iteration of the splicer's insertion loop (step 5 of
`inject_acsl_specs_treesitter`): look the fragment up, skip it when
falsy or whitespace-only, otherwise insert its stripped text plus a
newline before the point's byte position. -/
def injectStep (spec : List PyObj) (result : List Char) (point : InjectionPoint) :
    Except (List Char) (List Char) :=
  match spec.get? point.spec_index with
  | none => Except.error (chars "IndexError: list index out of range")
  | some spec_text =>
    if pyTruthy spec_text then
      match pyStrip spec_text with
      | Except.error e => Except.error e
      | Except.ok s =>
        if s ≠ [] then
          Except.ok (result.take point.byte_position ++ s ++ [ '\n' ] ++
            result.drop point.byte_position)
        else Except.ok result
    else Except.ok result

/-- The predicate generator of step 3: strip each truthy predicate,
keeping the non-empty results, and propagating the `AttributeError` a
non-string truthy element raises. -/
def predTexts : List PyObj → Except (List Char) (List (List Char))
  | [] => Except.ok []
  | p :: ps =>
    if pyTruthy p then
      match pyStrip p with
      | Except.error e => Except.error e
      | Except.ok s =>
        match predTexts ps with
        | Except.error e => Except.error e
        | Except.ok rest => Except.ok (if s ≠ [] then s :: rest else rest)
    else predTexts ps

/-- `inject_acsl_specs_treesitter`: split off the include header, place
the joined predicates after it, splice the function and loop fragments
into the body at the planner's points (descending), reassemble, collapse
blank-line runs and strip.  The `Except` layer models the Python
exceptions that `validate_and_inject` catches. -/
def inject_acsl_specs_treesitter (parse : List Char → Node) (spec : PyObj)
    (c_code : List Char) : Except (List Char) (List Char) :=
  if pyTruthy spec = false then Except.ok c_code
  else
    match pyElems spec with
    | none => Except.error (chars "TypeError: object of type " ++ pyTypeName spec ++
        chars " has no len()")
    | some l =>
      if l.length ≤ 1 then Except.ok c_code
      else
        let hb := splitHeaderBody c_code
        let spec0 := l.headD PyObj.pynone
        let predicates : PyObj := if pyTruthy spec0 then spec0 else PyObj.list []
        let ptextsE :=
          if pyTruthy predicates then
            match pyElems predicates with
            | none => Except.error (chars "TypeError: " ++ pyTypeName predicates ++
                chars " object is not iterable")
            | some preds => predTexts preds
          else Except.ok []
        match ptextsE with
        | Except.error e => Except.error e
        | Except.ok ptexts =>
          let predicates_text := List.intercalate (chars "\n\n") ptexts
          let injection_points := find_injection_points parse hb.2 l
          match injection_points.foldlM (injectStep l) hb.2 with
          | Except.error e => Except.error e
          | Except.ok result =>
            let final_parts :=
              (if hb.1 ≠ [] then [ hb.1 ] else []) ++
              (if predicates_text ≠ [] then [ predicates_text ] else []) ++
              [ result ]
            let final := List.intercalate (chars "\n\n") final_parts
            Except.ok (stripWS (collapseBlankRuns final))

/-- `validate_and_inject`: the orchestrator.  Validates that the
completion matches the skeleton, then injects; returns
`(success, injected_code, error_message)`. -/
def validate_and_inject (parse : List Char → Node) (skeleton completion : List Char)
    (spec : PyObj) : Bool × Option (List Char) × Option (List Char) :=
  let vr := validate_completion_matches_skeleton parse skeleton completion
  if vr.1 = false then
    (false, none, some (chars "Validation failed: " ++ pyOptStr vr.2))
  else
    match inject_acsl_specs_treesitter parse spec completion with
    | Except.ok injected => (true, some injected, none)
    | Except.error e => (false, none, some (chars "Injection failed: " ++ e))

/-- Example source: `int f()` with a `for` loop then a `while` loop in
the body (braces omitted from this comment). -/
def exCode : List Char := chars "int f()\x7bfor(;;);while(1);\x7d"

/-- Hand-built Tree Provider output for `exCode`. -/
def exTree : Node :=
  Node.mk (chars "translation_unit") 0 26
    [ Node.mk (chars "function_definition") 0 26
      [ Node.mk (chars "primitive_type") 0 3 [],
        Node.mk (chars "function_declarator") 4 7
          [ Node.mk (chars "identifier") 4 5 [],
            Node.mk (chars "parameter_list") 5 7 [] ],
        Node.mk (chars "compound_statement") 7 26
          [ Node.mk (chars "for_statement") 8 16
              [ Node.mk (chars "expression_statement") 15 16 [] ],
            Node.mk (chars "while_statement") 16 25
              [ Node.mk (chars "expression_statement") 24 25 [] ] ] ] ]

/-- A Tree Provider returning `exTree` for every input. -/
def exParse : List Char → Node := fun _ => exTree

/-- Example source: `int f()` with an empty body. -/
def exCode1 : List Char := chars "int f()\x7b\x7d"

/-- Hand-built Tree Provider output for `exCode1`. -/
def exTree1 : Node :=
  Node.mk (chars "translation_unit") 0 9
    [ Node.mk (chars "function_definition") 0 9
      [ Node.mk (chars "primitive_type") 0 3 [],
        Node.mk (chars "function_declarator") 4 7
          [ Node.mk (chars "identifier") 4 5 [] ],
        Node.mk (chars "compound_statement") 7 9 [] ] ]

/-- A Tree Provider returning `exTree1` for every input. -/
def exParse1 : List Char → Node := fun _ => exTree1

/-- The function record that `extract_structure` produces for
`exCode1` under `exParse1`. -/
def exFunc1 : FunctionInfo :=
  { name := chars "f"
    signature := chars "int f()"
    byte_position := 0
    line_number := 1
    loops := [] }

/-- A tree with no function definitions at all. -/
def emptyTree : Node := Node.mk (chars "translation_unit") 0 0 []

/-- A Tree Provider that sees one function in `exCode1` and none in any
other text (so a skeleton/completion pair parses to mismatching
structures). -/
def exParseMismatch : List Char → Node :=
  fun s => if s = exCode1 then exTree1 else emptyTree

/-- A `function_definition` node whose declarator is wrapped in a
`pointer_declarator`, as tree-sitter produces for `int *g()`: there is
no direct `function_declarator` child. -/
def ptrFuncNode : Node :=
  Node.mk (chars "function_definition") 0 11
    [ Node.mk (chars "primitive_type") 0 3 [],
      Node.mk (chars "pointer_declarator") 4 8
        [ Node.mk (chars "function_declarator") 5 8
          [ Node.mk (chars "identifier") 5 6 [] ] ],
      Node.mk (chars "compound_statement") 9 11 [] ]

/-- A second pointer-declarator function node with a different actual
name (`int *h()` at another position). -/
def ptrFuncNode2 : Node :=
  Node.mk (chars "function_definition") 12 23
    [ Node.mk (chars "primitive_type") 12 15 [],
      Node.mk (chars "pointer_declarator") 16 20
        [ Node.mk (chars "function_declarator") 17 20
          [ Node.mk (chars "identifier") 17 18 [] ] ],
      Node.mk (chars "compound_statement") 21 23 [] ]

/-- Source text for the two pointer-returning functions. -/
def ptrCode : List Char := chars "int *g()\x7b\x7d int *h()\x7b\x7d"

theorem compareLoopLists_refl (fname : List Char) :
    ∀ (j : Nat) (l : List LoopInfo), compareLoopLists fname j l l = (true, none) := by
  intro j l
  induction l generalizing j with
  | nil => rfl
  | cons a t ih => simp [compareLoopLists, ih]

theorem compareFuncLists_refl :
    ∀ (i : Nat) (l : List FunctionInfo), compareFuncLists i l l = (true, none) := by
  intro i l
  induction l generalizing i with
  | nil => rfl
  | cons a t ih => simp [compareFuncLists, compareLoopLists_refl, ih]

theorem compare_structures_refl (s : CodeStructure) : _compare_structures s s = (true, none) := by
  simp [_compare_structures, compareFuncLists_refl]

/-- C5: for every source text T that the Tree Provider parses,
`validate_and_inject(T, T, [[]])` (empty predicates, no non-predicate
fragments) returns success with the annotated text exactly equal to T —
in particular equal to T after whitespace normalization: the call is a
pure pass-through. -/
theorem c5_identity_pass_through (parse : List Char → Node) (T : List Char) :
    validate_and_inject parse T T (PyObj.list [ PyObj.list [] ]) = (true, some T, none) := by
  unfold validate_and_inject validate_completion_matches_skeleton
  simp [compare_structures_refl, inject_acsl_specs_treesitter, pyTruthy, pyElems]

/-- C1: whenever the comparator reports a mismatch on the structures
extracted from the reference and candidate, `validate_and_inject`
returns failure carrying exactly the comparator's diagnostic and no
annotated text; and conversely the public entry point only ever produces
annotated text when the comparison succeeded, so the check cannot be
bypassed. -/
theorem c1_validation_gate :
    (∀ (parse : List Char → Node) (skeleton completion : List Char) (spec : PyObj)
        (msg : List Char),
      _compare_structures (extract_structure parse skeleton)
          (extract_structure parse completion) = (false, some msg) →
      validate_and_inject parse skeleton completion spec =
        (false, none, some (chars "Validation failed: " ++ msg)))
    ∧ (∀ (parse : List Char → Node) (skeleton completion : List Char) (spec : PyObj),
      (validate_and_inject parse skeleton completion spec).2.1.isSome = true →
      (_compare_structures (extract_structure parse skeleton)
          (extract_structure parse completion)).1 = true) := by
  constructor
  · intro parse skeleton completion spec msg h
    unfold validate_and_inject validate_completion_matches_skeleton
    simp [h, pyOptStr]
  · intro parse skeleton completion spec h
    unfold validate_and_inject validate_completion_matches_skeleton at h
    by_cases hv : (_compare_structures (extract_structure parse skeleton)
        (extract_structure parse completion)).1 = false
    · simp [hv] at h
    · simpa using hv

/-- Witness for C1 at a concrete mismatching pair: the skeleton parses
to one function, the completion to none, and the orchestrator fails with
the comparator's count-mismatch diagnostic. -/
theorem c1_validation_gate_witness :
    validate_and_inject exParseMismatch exCode1 (chars "x") (PyObj.list [ PyObj.list [] ]) =
      (false, none, some (chars "Validation failed: " ++ countMsg 1 0)) :=
  c1_validation_gate.1 exParseMismatch exCode1 (chars "x") (PyObj.list [ PyObj.list [] ])
    (countMsg 1 0) (by decide)

theorem firstNonStr_eq_none :
    ∀ (off : Nat) (l : List PyObj), firstNonStr off l = none ↔ l.all isPyStr = true := by
  intro off l
  induction l generalizing off with
  | nil => simp [firstNonStr]
  | cons p ps ih =>
    by_cases hp : isPyStr p
    · simp [firstNonStr, hp, ih]
    · simp [firstNonStr, hp]

/-- C4 counterexample: the fragment sequence `[42]` is malformed (its
first element is not a sequence of strings), yet the public pipeline
accepts it: `validate_and_inject` returns success with the candidate
text passed through unchanged, instead of rejecting the call. -/
theorem c4_eager_validation_counterexample :
    validate_and_inject exParse1 exCode1 exCode1 (PyObj.list [ PyObj.int 42 ]) =
      (true, some exCode1, none)
    ∧ wellFormedFragmentSeq (PyObj.list [ PyObj.int 42 ]) = false := by
  constructor
  · decide
  · decide

/-- C4 amended: the eager malformedness check exists as the standalone
`validate_spec_structure`, which accepts a fragment sequence exactly
when it is a list whose first element is a list of strings and whose
later elements are strings; but the public pipeline `validate_and_inject`
never invokes it, so a malformed fragment sequence is not detected
eagerly — the concrete malformed sequence `[42]` is accepted with the
text passed through. -/
theorem c4_eager_validation_amended :
    (∀ spec : PyObj, (validate_spec_structure spec).1 = wellFormedFragmentSeq spec)
    ∧ (validate_and_inject exParse1 exCode1 exCode1 (PyObj.list [ PyObj.int 42 ])).1 = true := by
  constructor
  · intro spec
    cases spec with
    | str s => rfl
    | int n => rfl
    | pynone => rfl
    | list l =>
      cases l with
      | nil => rfl
      | cons first rest =>
        cases first with
        | str s => simp [validate_spec_structure, wellFormedFragmentSeq]
        | int n => simp [validate_spec_structure, wellFormedFragmentSeq]
        | pynone => simp [validate_spec_structure, wellFormedFragmentSeq]
        | list preds =>
          simp only [validate_spec_structure, wellFormedFragmentSeq]
          cases hp : firstNonStr 0 preds with
          | some ip =>
            have : ¬ preds.all isPyStr = true := by
              intro hall
              rw [← firstNonStr_eq_none 0 preds] at hall
              simp [hall] at hp
            simp [this]
          | none =>
            have hall : preds.all isPyStr = true := (firstNonStr_eq_none 0 preds).mp hp
            cases hr : firstNonStr 1 rest with
            | some ip =>
              have : ¬ rest.all isPyStr = true := by
                intro hall2
                rw [← firstNonStr_eq_none 1 rest] at hall2
                simp [hall2] at hr
              simp [hall, this]
            | none =>
              have hall2 : rest.all isPyStr = true := (firstNonStr_eq_none 1 rest).mp hr
              simp [hall, hall2]
  · decide

/-- C3 counterexample: a slot whose fragment text is whitespace-only
does receive an injection point from the planner — on a one-function
target with the whitespace-only fragment at index 1, the planner emits
one point for that very slot, not zero. -/
theorem c3_empty_fragment_counterexample :
    (find_injection_points exParse1 exCode1
        [ PyObj.list [], PyObj.str (chars "   ") ]).map
      (fun p => (p.byte_position, p.spec_index)) = [ (0, 1) ]
    ∧ stripWS (chars "   ") = [] := by
  constructor
  · decide
  · decide

/-- C3 amended: a slot whose fragment text is empty or whitespace-only
still yields an injection point from the planner (the planner's output
does not depend on fragment contents at all, only on the sequence
length, so the cursor consumes the slot exactly as for any other
fragment); the filtering happens in the splicer instead, whose insertion
step leaves the text unchanged at such a point, so nothing is spliced at
it. -/
theorem c3_empty_fragment_amended :
    (∀ (parse : List Char → Node) (c_code : List Char) (spec1 spec2 : List PyObj),
      spec1.length = spec2.length →
      find_injection_points parse c_code spec1 = find_injection_points parse c_code spec2)
    ∧ (∀ (spec : List PyObj) (result : List Char) (point : InjectionPoint) (s : List Char),
      spec.get? point.spec_index = some (PyObj.str s) → stripWS s = [] →
      injectStep spec result point = Except.ok result) := by
  constructor
  · intro parse c_code spec1 spec2 h
    simp only [find_injection_points]
    rw [h]
  · intro spec result point s h1 h2
    rw [List.get?_eq_getElem?] at h1
    by_cases hs : s.isEmpty
    · simp [injectStep, h1, pyTruthy, hs]
    · simp [injectStep, h1, pyTruthy, hs, pyStrip, h2]

/-- Witness for C3 amended, at concrete inputs: content-irrelevance of
the planner, and the splicer's step skipping a whitespace-only fragment. -/
theorem c3_empty_fragment_amended_witness :
    find_injection_points exParse1 exCode1 [ PyObj.list [], PyObj.str (chars "a") ] =
      find_injection_points exParse1 exCode1 [ PyObj.list [], PyObj.int 0 ]
    ∧ injectStep [ PyObj.list [], PyObj.str (chars "  ") ] (chars "x")
        { type := chars "function", byte_position := 0, line_number := 1,
          spec_index := 1, context := funcCtx (chars "f") } = Except.ok (chars "x") :=
  ⟨c3_empty_fragment_amended.1 exParse1 exCode1 _ _ (by decide),
   c3_empty_fragment_amended.2 _ _ _ (chars "  ") rfl (by decide)⟩

theorem isIncludeLine_nil : isIncludeLine [] = false := rfl

theorem lastIncludeGo_none_of_all :
    ∀ (lines : List (List Char)) (i : Nat) (acc : Option Nat),
      (∀ l ∈ lines, isIncludeLine l = false) → lastIncludeGo i acc lines = acc := by
  intro lines
  induction lines with
  | nil => intro i acc _; rfl
  | cons l ls ih =>
    intro i acc h
    have hl : isIncludeLine l = false := h l (by simp)
    simp only [lastIncludeGo, hl]
    exact ih (i + 1) acc (fun x hx => h x (by simp [hx]))

theorem lastIncludeGo_last :
    ∀ (lines : List (List Char)) (i : Nat) (acc : Option Nat) (k : Nat),
      isIncludeLine (lines.getD k []) = true →
      (∀ j, k < j → isIncludeLine (lines.getD j []) = false) →
      lastIncludeGo i acc lines = some (i + k) := by
  intro lines
  induction lines with
  | nil =>
    intro i acc k hk _
    simp [List.getD] at hk
    rw [isIncludeLine_nil] at hk
    exact absurd hk (by simp)
  | cons l ls ih =>
    intro i acc k hk hmax
    cases k with
    | zero =>
      have hl : isIncludeLine l = true := by simpa using hk
      have hrest : ∀ x ∈ ls, isIncludeLine x = false := by
        intro x hx
        rcases List.mem_iff_getElem.mp hx with ⟨j, hj, rfl⟩
        have := hmax (j + 1) (Nat.succ_pos j)
        simpa [List.getD_cons_succ, List.getD_eq_getElem?_getD, List.getElem?_eq_getElem hj] using this
      simp only [lastIncludeGo, hl, if_pos]
      rw [lastIncludeGo_none_of_all ls (i + 1) (some i) hrest]
      simp
    | succ k' =>
      have hk' : isIncludeLine (ls.getD k' []) = true := by simpa using hk
      have hmax' : ∀ j, k' < j → isIncludeLine (ls.getD j []) = false := by
        intro j hj
        have := hmax (j + 1) (by omega)
        simpa using this
      simp only [lastIncludeGo]
      rw [ih (i + 1) _ k' hk' hmax']
      congr 1
      omega

/-- C2 counterexample: on a text whose first line is not include-style
but whose second line is, the maximal leading contiguous run of include
lines is empty, yet the splicer's header is not empty — it keeps
everything up to the last include line anywhere in the file. -/
theorem c2_header_split_counterexample :
    isIncludeLine (chars "x") = false
    ∧ (splitHeaderBody (chars "x\n#include <a>\ny")).1 ≠ [] := by
  constructor
  · decide
  · decide

/-- C2 amended: the splicer splits the source at the last include-style
line anywhere in the file — the header is every line up to and
including that line (including any non-include lines before it) and the
body is everything after it; only when no line at all is include-style
is the header empty and the body the entire text. -/
theorem c2_header_split_amended :
    (∀ c_code : List Char,
      (∀ l ∈ splitOnNl c_code, isIncludeLine l = false) →
      splitHeaderBody c_code = ([], c_code))
    ∧ (∀ (c_code : List Char) (k : Nat),
      isIncludeLine ((splitOnNl c_code).getD k []) = true →
      (∀ j, k < j → isIncludeLine ((splitOnNl c_code).getD j []) = false) →
      splitHeaderBody c_code =
        (joinNl ((splitOnNl c_code).take (k + 1)), joinNl ((splitOnNl c_code).drop (k + 1)))) := by
  constructor
  · intro c_code h
    simp only [splitHeaderBody, lastIncludeIdx]
    rw [lastIncludeGo_none_of_all _ 0 none h]
  · intro c_code k hk hmax
    simp only [splitHeaderBody, lastIncludeIdx]
    rw [lastIncludeGo_last _ 0 none k hk hmax]
    simp

/-- Witness for C2 amended at concrete inputs: a file starting with an
include line splits after it, and a file with no include lines keeps an
empty header and its whole text as body. -/
theorem c2_header_split_amended_witness :
    splitHeaderBody (chars "#include <a.h>\nint x;") =
      (joinNl ((splitOnNl (chars "#include <a.h>\nint x;")).take 1),
       joinNl ((splitOnNl (chars "#include <a.h>\nint x;")).drop 1))
    ∧ splitHeaderBody (chars "int x;") = ([], chars "int x;") := by
  constructor
  · exact c2_header_split_amended.2 (chars "#include <a.h>\nint x;") 0 (by decide)
      (by
        intro j hj
        match j, hj with
        | 1, _ => decide
        | j + 2, _ =>
          have hlen : (splitOnNl (chars "#include <a.h>\nint x;")).length ≤ j + 2 := by
            have : (splitOnNl (chars "#include <a.h>\nint x;")).length = 2 := by decide
            omega
          rw [List.getD_eq_default _ _ hlen]
          decide)
  · exact c2_header_split_amended.1 (chars "int x;") (by decide)

theorem emitLoopPoints_spec (fname : List Char) (n : Nat) :
    ∀ (loops : List LoopInfo) (idx cursor : Nat),
      (emitLoopPoints fname n loops idx cursor).1.map (fun p => p.byte_position) =
        (loops.map (fun l => l.byte_position)).take (n - cursor)
      ∧ (emitLoopPoints fname n loops idx cursor).2 =
          cursor + min loops.length (n - cursor) := by
  intro loops
  induction loops with
  | nil => intro idx cursor; simp [emitLoopPoints]
  | cons lp rest ih =>
    intro idx cursor
    by_cases hc : cursor < n
    · have h1 := ih (idx + 1) (cursor + 1)
      simp only [emitLoopPoints, hc, if_pos, List.map_cons]
      constructor
      · rw [h1.1]
        have hs : n - cursor = (n - (cursor + 1)) + 1 := by omega
        rw [hs]
        rfl
      · rw [h1.2]
        simp only [List.length_cons]
        omega
    · have h1 := ih (idx + 1) cursor
      have he : emitLoopPoints fname n (lp :: rest) idx cursor =
          emitLoopPoints fname n rest (idx + 1) cursor := by
        simp [emitLoopPoints, hc]
      rw [he]
      have hz : n - cursor = 0 := by omega
      constructor
      · rw [h1.1, hz]
        simp
      · rw [h1.2, hz]
        simp

theorem emitFuncPoints_spec (n : Nat) :
    ∀ (fs : List FunctionInfo) (cursor : Nat),
      (emitFuncPoints n fs cursor).1.map (fun p => p.byte_position) =
        (slotPositionsOf fs).take (n - cursor) := by
  intro fs
  induction fs with
  | nil => intro cursor; simp [emitFuncPoints, slotPositionsOf]
  | cons f fs ih =>
    intro cursor
    have hl := emitLoopPoints_spec f.name n f.loops 0
    by_cases hc : cursor < n
    · simp only [emitFuncPoints, hc, if_pos, slotPositionsOf, List.map_cons, List.map_append]
      rw [(hl (cursor + 1)).1, ih _, (hl (cursor + 1)).2]
      rw [List.take_append_eq_append_take]
      have hs : n - cursor = (n - (cursor + 1)) + 1 := by omega
      rw [hs]
      simp only [List.take_succ_cons]
      have harith :
          n - (cursor + 1 + min f.loops.length (n - (cursor + 1))) =
            ((n - (cursor + 1)) + 1) - (f.byte_position :: f.loops.map (fun l => l.byte_position)).length := by
        simp only [List.length_cons, List.length_map]
        omega
      rw [harith]
      simp [List.cons_append]
    · have he : emitFuncPoints n (f :: fs) cursor =
          ((emitLoopPoints f.name n f.loops 0 cursor).1 ++
             (emitFuncPoints n fs (emitLoopPoints f.name n f.loops 0 cursor).2).1,
           (emitFuncPoints n fs (emitLoopPoints f.name n f.loops 0 cursor).2).2) := by
        simp [emitFuncPoints, hc]
      rw [he]
      have hz : n - cursor = 0 := by omega
      simp only [List.map_append]
      rw [(hl cursor).1, ih _, (hl cursor).2, hz]
      simp
      exact Or.inl hz

theorem pairwise_combine {α : Type} {R S T : α → α → Prop}
    (hRT : ∀ a b, R a b → S a b → T a b) :
    ∀ l : List α, l.Pairwise R → l.Pairwise S → l.Pairwise T := by
  intro l
  induction l with
  | nil => intro _ _; exact List.Pairwise.nil
  | cons a t ih =>
    intro hR hS
    rcases hR with _ | ⟨hRa, hRt⟩
    rcases hS with _ | ⟨hSa, hSt⟩
    exact List.Pairwise.cons (fun b hb => hRT a b (hRa b hb) (hSa b hb)) (ih hRt hSt)

theorem find_points_map_pos (parse : List Char → Node) (c_code : List Char) (spec : List PyObj) :
    List.Perm ((find_injection_points parse c_code spec).map (fun p => p.byte_position))
      ((slotPositions (extract_structure parse c_code)).take (spec.length - 1)) := by
  unfold find_injection_points slotPositions
  have hperm := (List.perm_insertionSort ptGE
    (emitFuncPoints spec.length (extract_structure parse c_code).functions 1).1).map
      (fun p => p.byte_position)
  rw [emitFuncPoints_spec] at hperm
  exact hperm

/-- C6: for every Tree Provider, target text and fragment sequence, as
long as the structural model's slot byte positions are pairwise
distinct, the planner's output is sorted strictly descending by byte
position — so applying the insertions in that order never invalidates
the stored offset of a not-yet-applied point (all remaining points lie
strictly before every position already spliced) and never produces
overlapping insertions. -/
theorem c6_descending_points (parse : List Char → Node) (c_code : List Char) (spec : List PyObj)
    (h : (slotPositions (extract_structure parse c_code)).Nodup) :
    (find_injection_points parse c_code spec).Pairwise
      (fun p q => q.byte_position < p.byte_position) := by
  have hsorted : (find_injection_points parse c_code spec).Pairwise ptGE := by
    unfold find_injection_points
    exact List.sorted_insertionSort ptGE _
  have htake : ((slotPositions (extract_structure parse c_code)).take (spec.length - 1)).Nodup :=
    h.sublist (List.take_sublist _ _)
  have hmapnd : ((find_injection_points parse c_code spec).map (fun p => p.byte_position)).Nodup :=
    ((find_points_map_pos parse c_code spec).nodup_iff).mpr htake
  have hne := List.pairwise_map.mp hmapnd
  exact pairwise_combine
    (fun a b h1 h2 => lt_of_le_of_ne h1 (fun e => h2 e.symm)) _ hsorted hne

/-- Witness for C6 on a concrete one-function, two-loop target whose
slot positions are distinct. -/
theorem c6_descending_points_witness :
    (find_injection_points exParse exCode
        [ PyObj.list [], PyObj.str (chars "A"), PyObj.str (chars "B") ]).Pairwise
      (fun p q => q.byte_position < p.byte_position) :=
  c6_descending_points exParse exCode
    [ PyObj.list [], PyObj.str (chars "A"), PyObj.str (chars "B") ] (by decide)

/-- C8: the planner truncates silently — it emits exactly
`min(slot count, fragment count - 1)` points, so when fragments run out
the remaining slots get nothing and no error is raised, and extra
fragments beyond the slots are never consumed; concretely, a single
function with two loops given a fragment sequence of length 3 (exactly
two non-predicate fragments) yields exactly the function point and the
first loop's point, and the second loop receives no injection. -/
theorem c8_truncation_boundaries :
    (∀ (parse : List Char → Node) (c_code : List Char) (spec : List PyObj),
      (find_injection_points parse c_code spec).length =
        min (slotPositions (extract_structure parse c_code)).length (spec.length - 1))
    ∧ (find_injection_points exParse exCode
        [ PyObj.list [], PyObj.str (chars "FS"), PyObj.str (chars "LI") ]).map
          (fun p => (p.type, p.byte_position, p.spec_index)) =
        [ (chars "loop", 8, 2), (chars "function", 0, 1) ] := by
  constructor
  · intro parse c_code spec
    have hlen := (find_points_map_pos parse c_code spec).length_eq
    simpa [List.length_map, List.length_take, Nat.min_comm] using hlen
  · decide

theorem loops_mem_extract (body : Node) (source : List Char) :
    ∀ lp ∈ _extract_loops_from_body body source,
      lp.line_number = countNl (source.take lp.byte_position) + 1 := by
  intro lp hlp
  unfold _extract_loops_from_body at hlp
  rw [(List.perm_insertionSort loopLE _).mem_iff] at hlp
  simp only [List.mem_append, List.mem_map] at hlp
  rcases hlp with (⟨n, _, rfl⟩ | ⟨n, _, rfl⟩) | ⟨n, _, rfl⟩ <;>
    simp [_extract_loop_info]

/-- C9: for every function and every loop recorded by
`extract_structure`, the `line_number` field equals the number of
newline characters preceding its `byte_position` in the source text,
plus one. -/
theorem c9_line_numbers (parse : List Char → Node) (src : List Char) :
    ∀ f ∈ (extract_structure parse src).functions,
      f.line_number = countNl (src.take f.byte_position) + 1
      ∧ ∀ lp ∈ f.loops, lp.line_number = countNl (src.take lp.byte_position) + 1 := by
  intro f hf
  unfold extract_structure at hf
  simp only [List.mem_map] at hf
  rcases hf with ⟨node, _, rfl⟩
  constructor
  · simp [_extract_function_info]
  · intro lp hlp
    simp only [_extract_function_info] at hlp
    rcases hbody : node.children.find? (fun c => c.type = chars "compound_statement") with
      _ | b
    · rw [hbody] at hlp
      simp at hlp
    · rw [hbody] at hlp
      exact loops_mem_extract b src lp hlp

/-- Witness for C9 on the concrete one-function target: the extracted
function starts at offset 0 on line 1. -/
theorem c9_line_numbers_witness :
    exFunc1 ∈ (extract_structure exParse1 exCode1).functions
    ∧ exFunc1.line_number = countNl (exCode1.take exFunc1.byte_position) + 1 :=
  ⟨by decide, (c9_line_numbers exParse1 exCode1 exFunc1 (by decide)).1⟩

theorem nameFromDeclarator_eq_none (source : List Char) :
    ∀ nodes : List Node,
      (∀ c ∈ nodes, c.type = chars "function_declarator" →
        ∀ g ∈ c.children, g.type ≠ chars "identifier") →
      nameFromDeclarator source nodes = none := by
  intro nodes
  induction nodes with
  | nil => intro _; rfl
  | cons c cs ih =>
    intro h
    by_cases hc : c.type = chars "function_declarator"
    · have hfind : c.children.find? (fun sc => sc.type = chars "identifier") = none := by
        rw [List.find?_eq_none]
        intro g hg
        simpa using h c (by simp) hc g hg
      simp only [nameFromDeclarator, hc, if_pos, hfind]
      exact ih (fun x hx => h x (by simp [hx]))
    · simp only [nameFromDeclarator, hc, if_neg]
      exact ih (fun x hx => h x (by simp [hx]))

/-- C10: a `function_definition` node with no direct
`function_declarator` child holding an `identifier` child (for example
a function whose declarator is wrapped in a pointer declarator) gets
the literal name `unknown` from `extract_structure`'s per-function
extraction rather than failing; two such functions therefore carry
equal names regardless of their actual names. -/
theorem c10_unknown_function_name :
    ∀ (source : List Char) (n1 n2 : Node),
      (∀ c ∈ n1.children, c.type = chars "function_declarator" →
        ∀ g ∈ c.children, g.type ≠ chars "identifier") →
      (∀ c ∈ n2.children, c.type = chars "function_declarator" →
        ∀ g ∈ c.children, g.type ≠ chars "identifier") →
      (_extract_function_info n1 source).name = chars "unknown"
      ∧ (_extract_function_info n2 source).name = (_extract_function_info n1 source).name := by
  intro source n1 n2 h1 h2
  have e1 : (_extract_function_info n1 source).name = chars "unknown" := by
    simp [_extract_function_info, _get_function_name, nameFromDeclarator_eq_none source _ h1]
  have e2 : (_extract_function_info n2 source).name = chars "unknown" := by
    simp [_extract_function_info, _get_function_name, nameFromDeclarator_eq_none source _ h2]
  exact ⟨e1, by rw [e1, e2]⟩

/-- Witness for C10 on two concrete pointer-returning functions with
different actual names: both are recorded as `unknown` and compare as
equal. -/
theorem c10_unknown_function_name_witness :
    (_extract_function_info ptrFuncNode ptrCode).name = chars "unknown"
    ∧ (_extract_function_info ptrFuncNode2 ptrCode).name =
        (_extract_function_info ptrFuncNode ptrCode).name :=
  c10_unknown_function_name ptrCode ptrFuncNode ptrFuncNode2 (by decide) (by decide)

theorem compareLoopLists_eq (fname : List Char) :
    ∀ (j : Nat) (ls cs : List LoopInfo),
      compareLoopLists fname j ls cs =
        ((firstLoopDivergence fname j ls cs).isNone,
         (firstLoopDivergence fname j ls cs).map renderDivergence) := by
  intro j ls
  induction ls generalizing j with
  | nil => intro cs; cases cs <;> rfl
  | cons sl ss ih =>
    intro cs
    cases cs with
    | nil => rfl
    | cons cl cs' =>
      by_cases ht : sl.type = cl.type
      · by_cases hh : sl.header = cl.header
        · simp [compareLoopLists, firstLoopDivergence, ht, hh, ih]
        · simp [compareLoopLists, firstLoopDivergence, ht, hh, renderDivergence]
      · simp [compareLoopLists, firstLoopDivergence, ht, renderDivergence]

theorem compareFuncLists_eq :
    ∀ (i : Nat) (ss cs : List FunctionInfo),
      compareFuncLists i ss cs =
        ((firstFuncDivergence i ss cs).isNone,
         (firstFuncDivergence i ss cs).map renderDivergence) := by
  intro i ss
  induction ss generalizing i with
  | nil => intro cs; cases cs <;> rfl
  | cons sf ss' ih =>
    intro cs
    cases cs with
    | nil => rfl
    | cons cf cs' =>
      by_cases hn : sf.name = cf.name
      · by_cases hsg : sf.signature = cf.signature
        · by_cases hlc : sf.loops.length = cf.loops.length
          · simp only [compareFuncLists, firstFuncDivergence, hn, hsg, hlc]
            rw [compareLoopLists_eq]
            cases hd : firstLoopDivergence cf.name 0 sf.loops cf.loops with
            | none => simp [hd, ih]
            | some d => simp [hd]
          · simp [compareFuncLists, firstFuncDivergence, hn, hsg, hlc, renderDivergence]
        · simp [compareFuncLists, firstFuncDivergence, hn, hsg, renderDivergence]
      · simp [compareFuncLists, firstFuncDivergence, hn, renderDivergence]

/-- C7: `compare_structures` short-circuits at the first divergence in
the fixed order (function count, then per-function name, signature,
loop count, then per-loop kind and header, in stored order) — stated as
a refinement: it returns success exactly when the specification-side
`firstDivergence` finds nothing, and otherwise the rendering of that
first divergence; and every divergence's diagnostic contains the name
of the compared field and both observed values. -/
theorem c7_comparator_refinement :
    (∀ skel comp : CodeStructure,
      _compare_structures skel comp =
        ((firstDivergence skel comp).isNone,
         (firstDivergence skel comp).map renderDivergence))
    ∧ (∀ d : StructDivergence,
      divergenceFieldLabel d <:+: renderDivergence d
      ∧ divergenceRefText d <:+: renderDivergence d
      ∧ divergenceCandText d <:+: renderDivergence d) := by
  constructor
  · intro skel comp
    by_cases hc : skel.functions.length = comp.functions.length
    · simp only [_compare_structures, firstDivergence, hc]
      simp only [ne_eq, not_true_eq_false, if_false, reduceIte]
      exact compareFuncLists_eq 0 _ _
    · simp [_compare_structures, firstDivergence, hc, renderDivergence]
  · intro d
    cases d with
    | funcCount a b =>
      have hsplit : chars "Function count mismatch: skeleton has " =
          chars "Function " ++ chars "count mismatch" ++ chars ": skeleton has " := by decide
      refine ⟨⟨chars "Function ",
          chars ": skeleton has " ++ natChars a ++ chars ", completion has " ++ natChars b, ?_⟩,
        ⟨chars "Function count mismatch: skeleton has ",
          chars ", completion has " ++ natChars b, ?_⟩,
        ⟨chars "Function count mismatch: skeleton has " ++ natChars a ++
            chars ", completion has ", [], ?_⟩⟩
      · simp [divergenceFieldLabel, renderDivergence, countMsg, hsplit, List.append_assoc]
      · simp [divergenceRefText, renderDivergence, countMsg, List.append_assoc]
      · simp [divergenceCandText, renderDivergence, countMsg, List.append_assoc]
    | funcName i a b =>
      have hsplit : chars " name mismatch: " =
          chars " " ++ chars "name mismatch" ++ chars ": " := by decide
      refine ⟨⟨chars "Function " ++ natChars i ++ chars " ",
          chars ": " ++ quote1 ++ a ++ quote1 ++ chars " vs " ++ quote1 ++ b ++ quote1, ?_⟩,
        ⟨chars "Function " ++ natChars i ++ chars " name mismatch: " ++ quote1,
          quote1 ++ chars " vs " ++ quote1 ++ b ++ quote1, ?_⟩,
        ⟨chars "Function " ++ natChars i ++ chars " name mismatch: " ++ quote1 ++ a ++
            quote1 ++ chars " vs " ++ quote1, quote1, ?_⟩⟩
      · simp [divergenceFieldLabel, renderDivergence, nameMsg, hsplit, List.append_assoc]
      · simp [divergenceRefText, renderDivergence, nameMsg, List.append_assoc]
      · simp [divergenceCandText, renderDivergence, nameMsg, List.append_assoc]
    | funcSig n a b =>
      have hsplit : chars " signature mismatch:\n  Skeleton: " =
          chars " " ++ chars "signature mismatch" ++ chars ":\n  Skeleton: " := by decide
      refine ⟨⟨chars "Function " ++ quote1 ++ n ++ quote1 ++ chars " ",
          chars ":\n  Skeleton: " ++ a ++ chars "\n  Completion: " ++ b, ?_⟩,
        ⟨chars "Function " ++ quote1 ++ n ++ quote1 ++ chars " signature mismatch:\n  Skeleton: ",
          chars "\n  Completion: " ++ b, ?_⟩,
        ⟨chars "Function " ++ quote1 ++ n ++ quote1 ++
            chars " signature mismatch:\n  Skeleton: " ++ a ++ chars "\n  Completion: ",
          [], ?_⟩⟩
      · simp [divergenceFieldLabel, renderDivergence, sigMsg, hsplit, List.append_assoc]
      · simp [divergenceRefText, renderDivergence, sigMsg, List.append_assoc]
      · simp [divergenceCandText, renderDivergence, sigMsg, List.append_assoc]
    | loopCount n a b =>
      have hsplit : chars " loop count mismatch: skeleton has " =
          chars " " ++ chars "loop count mismatch" ++ chars ": skeleton has " := by decide
      refine ⟨⟨chars "Function " ++ quote1 ++ n ++ quote1 ++ chars " ",
          chars ": skeleton has " ++ natChars a ++ chars ", completion has " ++ natChars b, ?_⟩,
        ⟨chars "Function " ++ quote1 ++ n ++ quote1 ++
            chars " loop count mismatch: skeleton has ",
          chars ", completion has " ++ natChars b, ?_⟩,
        ⟨chars "Function " ++ quote1 ++ n ++ quote1 ++
            chars " loop count mismatch: skeleton has " ++ natChars a ++
            chars ", completion has ", [], ?_⟩⟩
      · simp [divergenceFieldLabel, renderDivergence, loopCountMsg, hsplit, List.append_assoc]
      · simp [divergenceRefText, renderDivergence, loopCountMsg, List.append_assoc]
      · simp [divergenceCandText, renderDivergence, loopCountMsg, List.append_assoc]
    | loopKind n j a b =>
      have hsplit : chars " type mismatch: " =
          chars " " ++ chars "type mismatch" ++ chars ": " := by decide
      refine ⟨⟨chars "Function " ++ quote1 ++ n ++ quote1 ++ chars " loop " ++ natChars j ++
            chars " ",
          chars ": " ++ quote1 ++ a ++ quote1 ++ chars " vs " ++ quote1 ++ b ++ quote1, ?_⟩,
        ⟨chars "Function " ++ quote1 ++ n ++ quote1 ++ chars " loop " ++ natChars j ++
            chars " type mismatch: " ++ quote1,
          quote1 ++ chars " vs " ++ quote1 ++ b ++ quote1, ?_⟩,
        ⟨chars "Function " ++ quote1 ++ n ++ quote1 ++ chars " loop " ++ natChars j ++
            chars " type mismatch: " ++ quote1 ++ a ++ quote1 ++ chars " vs " ++ quote1,
          quote1, ?_⟩⟩
      · simp [divergenceFieldLabel, renderDivergence, loopTypeMsg, hsplit, List.append_assoc]
      · simp [divergenceRefText, renderDivergence, loopTypeMsg, List.append_assoc]
      · simp [divergenceCandText, renderDivergence, loopTypeMsg, List.append_assoc]
    | loopHeader n j a b =>
      have hsplit : chars " header mismatch:\n  Skeleton: " =
          chars " " ++ chars "header mismatch" ++ chars ":\n  Skeleton: " := by decide
      refine ⟨⟨chars "Function " ++ quote1 ++ n ++ quote1 ++ chars " loop " ++ natChars j ++
            chars " ",
          chars ":\n  Skeleton: " ++ a ++ chars "\n  Completion: " ++ b, ?_⟩,
        ⟨chars "Function " ++ quote1 ++ n ++ quote1 ++ chars " loop " ++ natChars j ++
            chars " header mismatch:\n  Skeleton: ",
          chars "\n  Completion: " ++ b, ?_⟩,
        ⟨chars "Function " ++ quote1 ++ n ++ quote1 ++ chars " loop " ++ natChars j ++
            chars " header mismatch:\n  Skeleton: " ++ a ++ chars "\n  Completion: ",
          [], ?_⟩⟩
      · simp [divergenceFieldLabel, renderDivergence, loopHeaderMsg, hsplit, List.append_assoc]
      · simp [divergenceRefText, renderDivergence, loopHeaderMsg, List.append_assoc]
      · simp [divergenceCandText, renderDivergence, loopHeaderMsg, List.append_assoc]
